import Mathlib

/-!
Verification development for the resume-parsing core of the RoleReady
repository (`apps/api/roleready_api/services/parsing.py`).

The Python source is shallowly embedded: pure helper functions become Lean
functions over `String` / `List Char`; the external collaborators
(python-docx, PyMuPDF, pdfminer, OCR, nltk sentence tokenizer, langdetect,
byte decoding) are modelled as oracle fields of an `Env` structure, and
fallible calls return `Except Unit`.  Machine floats of the source are
modelled as exact rationals; all comparisons that occur in the source are
at rational values far from any float rounding boundary (denominators are
tiny), so the rational model agrees with the float behaviour.

Character-level operations (`lower`, `upper`, `title`, `isupper`,
whitespace, printability) are modelled at ASCII precision, which covers
every alias-table key and every concrete input used below.
-/

set_option maxRecDepth 100000

set_option allowUnsafeReducibility true

attribute [local semireducible] Rat.add Rat.mul Rat.sub Rat.inv Rat.div

namespace RoleReady

/-! ### Python character and string primitives (ASCII-faithful) -/

/-- Python whitespace (the ASCII part of `str.isspace` / regex class `\s`),
as code-point tests. -/
def pyIsSpace (c : Char) : Bool :=
  c.toNat = 32 || c.toNat = 9 || c.toNat = 10 || c.toNat = 13 ||
    c.toNat = 11 || c.toNat = 12

def isAsciiUpper (c : Char) : Bool := 65 ≤ c.toNat && c.toNat ≤ 90

def isAsciiLower (c : Char) : Bool := 97 ≤ c.toNat && c.toNat ≤ 122

/-- cased character (ASCII letters). -/
def isCased (c : Char) : Bool := isAsciiUpper c || isAsciiLower c

def pyLowerChar (c : Char) : Char :=
  if isAsciiUpper c then Char.ofNat (c.toNat + 32) else c

def pyUpperChar (c : Char) : Char :=
  if isAsciiLower c then Char.ofNat (c.toNat - 32) else c

def isAsciiDigit (c : Char) : Bool := 48 ≤ c.toNat && c.toNat ≤ 57

/-- regex word character `\w` (ASCII part): letter, digit or underscore. -/
def isWordChar (c : Char) : Bool := isCased c || isAsciiDigit c || c.toNat = 95

/-- ASCII printable characters (Python `str.isprintable` on ASCII input). -/
def isPrintableAscii (c : Char) : Bool := 32 ≤ c.toNat && c.toNat ≤ 126

/-- Python `str.strip()` on a character list. -/
def pyStrip (l : List Char) : List Char :=
  ((l.dropWhile pyIsSpace).reverse.dropWhile pyIsSpace).reverse

/-- collapse runs of whitespace to a single space (regex `\s+` -> " ");
the flag records being inside a whitespace run. -/
def collapseWSGo : Bool → List Char → List Char
  | _, [] => []
  | inRun, c :: rest =>
    if pyIsSpace c then
      if inRun then collapseWSGo true rest else ' ' :: collapseWSGo true rest
    else c :: collapseWSGo false rest

def collapseWS (l : List Char) : List Char := collapseWSGo false l

def pyLower (l : List Char) : List Char := l.map pyLowerChar

/-- Python `str.isupper`: at least one cased character and no lowercase one. -/
def pyIsUpper (l : List Char) : Bool :=
  l.any isCased && !(l.any isAsciiLower)

/-- Python `str.title` (ASCII): a cased char after an uncased one is
uppercased, a cased char after a cased one is lowercased. -/
def pyTitleGo : Bool → List Char → List Char
  | _, [] => []
  | prevCased, c :: rest =>
    if isCased c then
      (if prevCased then pyLowerChar c else pyUpperChar c) :: pyTitleGo true rest
    else
      c :: pyTitleGo false rest

def pyTitle (l : List Char) : List Char := pyTitleGo false l

/-- Python `str.split()` (no argument): maximal nonempty runs between
whitespace. -/
def pyWordsGo : List Char → List Char → List (List Char)
  | acc, [] => if acc = [] then [] else [acc.reverse]
  | acc, c :: rest =>
    if pyIsSpace c then
      if acc = [] then pyWordsGo [] rest else acc.reverse :: pyWordsGo [] rest
    else pyWordsGo (c :: acc) rest

def pyWords (l : List Char) : List (List Char) := pyWordsGo [] l

/-- number of words of Python `len(s.split())`. -/
def wordCount (l : List Char) : Nat := (pyWords l).length

/-- split a character list at characters satisfying `p` (regex
`re.split` on a single-character class): delimiters are removed, empty
fragments are kept. -/
def splitAtChars (p : Char → Bool) (l : List Char) : List (List Char) :=
  match l with
  | [] => [[]]
  | c :: rest =>
    let r := splitAtChars p rest
    if p c then [] :: r
    else
      match r with
      | [] => [[c]]
      | h :: t => (c :: h) :: t

/-- `sub.isSubstringOf l`: some contiguous run of `l` equals `sub`. -/
def firstChunkIs (sub l : List Char) : Bool :=
  decide (l.take sub.length = sub)

def containsRun (sub : List Char) : List Char → Bool
  | [] => decide (sub = [])
  | c :: rest => firstChunkIs sub (c :: rest) || containsRun sub rest

/-- Python string `<` / `>` comparison (lexicographic by code point). -/
def pyStrLt : List Char → List Char → Bool
  | [], [] => false
  | [], _ :: _ => true
  | _ :: _, [] => false
  | a :: as_, b :: bs_ =>
    if a.toNat < b.toNat then true
    else if b.toNat < a.toNat then false
    else pyStrLt as_ bs_

/-! ### Heading taxonomy (`CANONICAL`, `MISSPELLINGS`, `ALL_ALIASES`) -/

def CANONICAL : List (String × List String) :=
  [ ("summary", ["summary","professional summary","profile","about me","overview",
      "executive summary","career summary","objective"]),
    ("skills", ["skills","technical skills","core competencies","skills & tools",
      "competencies","key skills","technology stack","stack","technical proficiencies",
      "areas of expertise","core skills","skills summary","technology skills",
      "tools & technologies","technical summary","key technologies","tech stack",
      "core strengths"]),
    ("experience", ["experience","work experience","professional experience",
      "employment","work history","career history","relevant experience"]),
    ("projects", ["projects","selected projects","personal projects","key projects"]),
    ("education", ["education","academics","academic background"]),
    ("certifications", ["certifications","licenses","certs"]) ]

def MISSPELLINGS : List (String × String) :=
  [ ("summery","professional summary"), ("sumary","summary"),
    ("proffesional summary","professional summary"), ("experiance","experience"),
    ("work experiance","work experience"), ("educatoin","education"),
    ("cerifications","certifications") ]

/-- the bucket a corrected misspelling belongs to: first canonical entry whose
alias list contains it or whose name equals it (source loop over
`CANONICAL.items()`). -/
def misspellTarget (right : String) : Option String :=
  (CANONICAL.find? (fun kv => kv.2.contains right || kv.1 = right)).map (·.1)

/-- `ALL_ALIASES` in dict insertion order: aliases from `CANONICAL`, then the
misspellings that found a target bucket. -/
def ALL_ALIASES : List (String × String) :=
  (CANONICAL.flatMap (fun kv => kv.2.map (fun n => (n, kv.1)))) ++
    (MISSPELLINGS.filterMap (fun wr =>
      (misspellTarget wr.2).map (fun t => (wr.1, t))))

def ALL_KEYS : List String := ALL_ALIASES.map (·.1)

def aliasLookup (s : String) : Option String :=
  (ALL_ALIASES.find? (fun kv => kv.1 = s)).map (·.2)

/-! ### difflib: `SequenceMatcher.ratio` and `get_close_matches`

Keys and queries are all far shorter than 200 characters, so difflib's
autojunk never fires and no element is junk; the embedding therefore omits
the junk machinery, which is dead for these inputs. -/

/-- ascending positions of `c` in `b` (difflib's `b2j`). -/
def charPositions (b : List Char) (c : Char) : List Nat :=
  (List.range b.length).filter (fun j => b.getD j ' ' = c && j < b.length)

/-- one inner step of `find_longest_match`: process the occurrence list of
`a[i]` in `b`, threading `j2len` (an association list) and the current best
`(i', j', size)`.  Positions are processed in ascending order and only a
strictly larger run replaces the best, exactly as in difflib. -/
def flmInner (i : Nat) (blo bhi : Nat) :
    List Nat → List (Nat × Nat) → List (Nat × Nat) → (Nat × Nat × Nat) →
    (List (Nat × Nat) × (Nat × Nat × Nat))
  | [], _, acc, best => (acc, best)
  | j :: js, j2len, acc, best =>
    if j < blo then flmInner i blo bhi js j2len acc best
    else if bhi ≤ j then (acc, best)
    else
      let prev := ((j2len.find? (fun p => p.1 + 1 = j)).map (·.2)).getD 0
      let k := prev + 1
      let best' := if best.2.2 < k then (i + 1 - k, j + 1 - k, k) else best
      flmInner i blo bhi js j2len ((j, k) :: acc) best'

/-- `find_longest_match(alo, ahi, blo, bhi)` of difflib with no junk. -/
def flm (a b : List Char) (alo ahi blo bhi : Nat) : Nat × Nat × Nat :=
  let step := fun (st : List (Nat × Nat) × (Nat × Nat × Nat)) (i : Nat) =>
    flmInner i blo bhi (charPositions b (a.getD i ' ')) st.1 [] st.2
  (((List.range ahi).drop alo).foldl step ([], (alo, blo, 0))).2

/-- total size of all matching blocks (the recursion of
`get_matching_blocks`, fuel-bounded; the fuel `ahi+bhi+1` strictly
decreases because each recursive call works on a strictly smaller span). -/
def matchSum (fuel : Nat) (a b : List Char) (alo ahi blo bhi : Nat) : Nat :=
  match fuel with
  | 0 => 0
  | fuel + 1 =>
    let r := flm a b alo ahi blo bhi
    let i := r.1
    let j := r.2.1
    let k := r.2.2
    if k = 0 then 0
    else
      k + matchSum fuel a b alo i blo j + matchSum fuel a b (i + k) ahi (j + k) bhi

/-- `(M, T)` with `SequenceMatcher(a, b).ratio() = 2 * M / T` (and ratio 1
when both are empty). -/
def ratioOf (a b : List Char) : Nat × Nat :=
  (matchSum (a.length + b.length + 1) a b 0 a.length 0 b.length,
    a.length + b.length)

/-- `2 * M / T >= num / den` (difflib's cutoff test; `T = 0` means ratio 1). -/
def ratioGe (mt : Nat × Nat) (num den : Nat) : Bool :=
  if mt.2 = 0 then decide (den ≥ num) else decide (2 * mt.1 * den ≥ num * mt.2)

/-- strictly better scored candidate in `heapq.nlargest` order on
`(ratio, string)` pairs: larger ratio, or equal ratio and larger string. -/
def betterCand (m1 t1 : Nat) (x1 : List Char) (m2 t2 : Nat) (x2 : List Char) : Bool :=
  decide (2 * m1 * t2 > 2 * m2 * t1) ||
    (decide (2 * m1 * t2 = 2 * m2 * t1) && pyStrLt x2 x1)

/-- `difflib.get_close_matches(word, keys, n=1, cutoff=num/den)`:
the single best candidate above the cutoff, ties broken toward the
lexicographically larger string.  `SequenceMatcher` is seeded with
`a = key`, `b = word`. -/
def getCloseMatch1 (word : List Char) (keys : List (List Char)) (num den : Nat) :
    Option (List Char) :=
  (keys.foldl (fun best x =>
      let mt := ratioOf x word
      if ratioGe mt num den then
        match best with
        | none => some (mt.1, mt.2, x)
        | some (m, t, y) => if betterCand mt.1 mt.2 x m t y then some (mt.1, mt.2, x) else best
      else best)
    none).map (·.2.2)

/-! ### `_norm_heading` and `_maybe_heading` -/

/-- trailing-punctuation characters of the regex `[:\-–—]+$`
(colon 58, dash 45, en dash 8211, em dash 8212). -/
def isTrailPunct (c : Char) : Bool :=
  c.toNat = 58 || c.toNat = 45 || c.toNat = 8211 || c.toNat = 8212

/-- `_norm_heading`: strip, remove a trailing run of colons/dashes, collapse
whitespace, lower-case. -/
def norm_heading (s : String) : String :=
  let l := pyStrip s.data
  let l := (l.reverse.dropWhile isTrailPunct).reverse
  let l := collapseWS l
  String.mk (pyLower l)

/-- `_maybe_heading`: `None` for an empty, overlong or period-terminated
normalized line; otherwise exact alias lookup, then fuzzy match at cutoff
0.78, then (for fully upper-case lines) fuzzy match of the title-cased
normalized line at cutoff 0.72. -/
def maybe_heading (line : String) : Option String :=
  let s := norm_heading line
  if s.data = [] || 60 < s.data.length || s.data.getLast? = some '.' then
    none
  else
    match aliasLookup s with
    | some b => some b
    | none =>
      match getCloseMatch1 s.data (ALL_KEYS.map String.data) 78 100 with
      | some k => aliasLookup (String.mk k)
      | none =>
        if pyIsUpper line.data then
          match getCloseMatch1 (pyTitle s.data) (ALL_KEYS.map String.data) 72 100 with
          | some k => aliasLookup (String.mk k)
          | none => none
        else none

/-! ### Cleaners and splitters -/

/-- regex `\r\n?` -> `"\n"`. -/
def normNewlines : List Char → List Char
  | [] => []
  | '\r' :: '\n' :: rest => '\n' :: normNewlines rest
  | '\r' :: rest => '\n' :: normNewlines rest
  | c :: rest => c :: normNewlines rest

/-- `_clean_lines`: normalize newlines, split on `"\n"`, collapse internal
whitespace and strip each line, drop empties. -/
def clean_lines (text : String) : List String :=
  ((splitAtChars (fun c => c = '\n') (normNewlines text.data)).map
      (fun l => pyStrip (collapseWS l))).filterMap
    (fun l => if l = [] then none else some (String.mk l))

/-- section buckets: an insertion-ordered association list, as a Python dict. -/
def sectSetdefault (m : List (String × List String)) (k : String) :
    List (String × List String) :=
  if (m.find? (fun kv => kv.1 = k)).isSome then m else m ++ [(k, [])]

def sectAppend (m : List (String × List String)) (k : String) (v : String) :
    List (String × List String) :=
  (sectSetdefault m k).map (fun kv => if kv.1 = k then (kv.1, kv.2 ++ [v]) else kv)

def sectGet (m : List (String × List String)) (k : String) : List String :=
  ((m.find? (fun kv => kv.1 = k)).map (·.2)).getD []

/-- `_split_sections`: single-pass cursor state machine; a heading line
switches the cursor and is itself discarded. -/
def split_sections (lines : List String) : List (String × List String) :=
  (lines.foldl (fun st ln =>
      match maybe_heading ln with
      | some b => (sectSetdefault st.1 b, b)
      | none => (sectAppend st.1 st.2 ln, st.2))
    ([("other", ([] : List String))], "other")).1

/-! ### `_extract_skills` -/

/-- `\d{4}`: four consecutive digits somewhere. -/
def hasDigits4 : List Char → Bool
  | a :: b :: c :: d :: rest =>
    (isAsciiDigit a && isAsciiDigit b && isAsciiDigit c && isAsciiDigit d) ||
      hasDigits4 (b :: c :: d :: rest)
  | _ => false

/-- `re.search` of a literal alternative with `\b` on both sides.  A `\b`
holds where word-ness flips; every alternative begins with a word char, and
only `"St."` ends with a non-word one. -/
def wordSearchAt (t : List Char) (i : Nat) (w : List Char) : Bool :=
  firstChunkIs w (t.drop i) &&
    (decide (i = 0) || !isWordChar (t.getD (i - 1) ' ')) &&
    (let j := i + w.length
     if isWordChar (w.getLastD ' ') then
       decide (j = t.length) || !isWordChar (t.getD j ' ')
     else
       decide (j < t.length) && isWordChar (t.getD j ' '))

def wordSearch (alts : List String) (t : List Char) : Bool :=
  (List.range (t.length + 1)).any (fun i => alts.any (fun w => wordSearchAt t i w.data))

def monthsYearsStates : List String :=
  ["Jan","Feb","Mar","Apr","May","Jun","Jul","Aug","Sep","Oct","Nov","Dec",
   "2020","2021","2022","2023","2024","2025","2026","2027","2028","2029",
   "Present","St.","MO","CA","NY","TX","IL","FL"]

/-- the first noise filter of `_extract_skills`:
`\d{4}|@|https?://|\.com`. -/
def skillNoise1 (t : List Char) : Bool :=
  hasDigits4 t || t.contains '@' || containsRun "http://".data t ||
    containsRun "https://".data t || containsRun ".com".data t

/-- the joined text blob of `_extract_skills`. -/
def skillBlob (lines : List String) : List Char := (String.intercalate " " lines).data

/-- the comma-dense delimiter class `[,;]|\n`. -/
def isDenseDelim (c : Char) : Bool := c = ',' || c = ';' || c = '\n'

/-- the broad delimiter class `[,/|;]|\u2022|\n`. -/
def isBroadDelim (c : Char) : Bool :=
  c = ',' || c = '/' || c = '|' || c = ';' || c = Char.ofNat 0x2022 || c = '\n'

/-- strip each fragment and drop empties, overlong fragments and the two
noise-pattern classes. -/
def skillFilter (parts : List (List Char)) : List (List Char) :=
  parts.filterMap (fun p =>
    let t := pyStrip p
    if t = [] || 50 < t.length || skillNoise1 t then none
    else if wordSearch monthsYearsStates t then none
    else some t)

/-- `_extract_skills`: join, split comma-densely or broadly, filter noise,
de-duplicate case-insensitively (dropping one-character keys), cap at 80. -/
def extract_skills (lines : List String) : List String :=
  (((skillFilter
      (if (skillBlob lines).contains ',' &&
          3 < (splitAtChars (fun c => c = ',') (skillBlob lines)).length then
        splitAtChars isDenseDelim (skillBlob lines)
      else
        splitAtChars isBroadDelim (skillBlob lines))).foldl
    (fun st s =>
      let k := pyStrip (pyLower s)
      if k ≠ [] && !st.2.contains k && 1 < k.length then
        (st.1 ++ [String.mk s], st.2 ++ [k])
      else st)
    ([], [])).1).take 80

/-! ### `_extract_bullets_from_lines` -/

/-- remainder of a line after the bullet-marker regex
`^(?:[-•·*]|•|\d+\.)\s+` (with its whitespace), or `none`. -/
def spacesThen (l : List Char) : Option (List Char) :=
  match l with
  | c :: rest => if pyIsSpace c then some (rest.dropWhile pyIsSpace) else none
  | [] => none

def afterMarker (l : List Char) : Option (List Char) :=
  match l with
  | [] => none
  | c :: rest =>
    if c = '-' || c = '*' || c = Char.ofNat 0x2022 || c = Char.ofNat 0xB7 then
      spacesThen rest
    else if isAsciiDigit c then
      match rest.dropWhile isAsciiDigit with
      | '.' :: rest2 => spacesThen rest2
      | _ => none
    else none

/-- the `flush()` closure: join the accumulator fragments with spaces and
keep the result only when it has at least 5 words. -/
def flushAcc (bullets cur : List String) : List String :=
  match cur with
  | [] => bullets
  | _ =>
    let txt := pyStrip (String.intercalate " " cur).data
    if 5 ≤ wordCount txt then bullets ++ [String.mk txt] else bullets

def bulletsLoop : List String → List String → List String → List String
  | [], bullets, cur => flushAcc bullets cur
  | ln :: rest, bullets, cur =>
    match afterMarker ln.data with
    | some rem => bulletsLoop rest (flushAcc bullets cur ++ [String.mk (pyStrip rem)]) []
    | none =>
      if pyStrip ln.data = [] then bulletsLoop rest (flushAcc bullets cur) []
      else if (pyStrip ln.data).getLast? = some '.' && 5 ≤ wordCount ln.data && cur = [] then
        bulletsLoop rest (bullets ++ [String.mk (pyStrip ln.data)]) cur
      else bulletsLoop rest bullets (cur ++ [String.mk (pyStrip ln.data)])

/-- case-insensitive first-seen-order de-duplication
(`if k not in seen: seen.add(k); out.append(b)`). -/
def dedupeCI (l : List String) : List String :=
  (l.foldl (fun st b =>
      let k := pyLower b.data
      if !st.2.contains k then (st.1 ++ [b], st.2 ++ [k]) else st)
    ([], [])).1

def extract_bullets_from_lines (lines : List String) : List String :=
  (dedupeCI (bulletsLoop lines [] [])).take 200

/-! ### PDF layout helpers -/

/-- `_normalize_hyphens`: regex `(\w)-\n(\w)` -> `\1\2`, non-overlapping
left-to-right as `re.sub`: a successful replacement resumes after its match,
a failure advances one character.  Fuel is the list length, which never runs
out because each step consumes at least one character. -/
def nhGo : Nat → List Char → List Char
  | 0, l => l
  | _ + 1, [] => []
  | fuel + 1, a :: rest =>
    match rest with
    | '-' :: '\n' :: b :: rest2 =>
      if isWordChar a && isWordChar b then a :: b :: nhGo fuel rest2
      else a :: nhGo fuel rest
    | _ => a :: nhGo fuel rest

def normalizeHyphens (l : List Char) : List Char := nhGo l.length l

structure PdfBlock where
  x0 : ℚ
  y0 : ℚ
  x1 : ℚ
  y1 : ℚ
  text : String
deriving DecidableEq, Repr

structure PdfPage where
  width : ℚ
  blocks : List PdfBlock
  /-- `page.get_text("text")`, used only by the density probe. -/
  plainText : String
deriving DecidableEq, Repr

/-- round-half-to-even on rationals (Python `round`). -/
def roundHalfEvenQ (q : ℚ) : ℤ :=
  let f := ⌊q⌋
  if q - f < 1/2 then f
  else if 1/2 < q - f then f + 1
  else if Even f then f else f + 1

/-- Python `round(v, 1)`. -/
def round1 (q : ℚ) : ℚ := (roundHalfEvenQ (q * 10) : ℚ) / 10

/-- the sort key `(round(b[1],1), round(b[0],1))` compared as Python tuples. -/
def blockLe (b1 b2 : PdfBlock) : Bool :=
  decide (round1 b1.y0 < round1 b2.y0) ||
    (decide (round1 b1.y0 = round1 b2.y0) && decide (round1 b1.x0 ≤ round1 b2.x0))

/-- stable insertion sort (Python `sorted` is stable). -/
def insSorted (le : PdfBlock → PdfBlock → Bool) (x : PdfBlock) :
    List PdfBlock → List PdfBlock
  | [] => [x]
  | y :: ys => if le y x then y :: insSorted le x ys else x :: y :: ys

def stableSort (le : PdfBlock → PdfBlock → Bool) (l : List PdfBlock) : List PdfBlock :=
  l.foldl (fun acc x => insSorted le x acc) []

/-- the nonempty stripped lines of one block's hyphen-normalized text. -/
def emitBlockLines (b : PdfBlock) : List String :=
  (splitAtChars (fun c => c = '\n') (normalizeHyphens b.text.data)).filterMap
    (fun l => if pyStrip l = [] then none else some (String.mk (pyStrip l)))

def blockCenter (b : PdfBlock) : ℚ := (b.x0 + b.x1) / 2

/-- the blocks kept after the empties are discarded. -/
def nonEmptyBlocks (page : PdfPage) : List PdfBlock :=
  page.blocks.filter (fun b => !decide (pyStrip b.text.data = []))

/-- `right_frac` of the source: the fraction of kept blocks whose center
exceeds `width * 0.55`. -/
def codeRightFrac (page : PdfPage) : ℚ :=
  ((nonEmptyBlocks page).countP
      (fun b => decide (blockCenter b > page.width * (55/100)))) /
    (nonEmptyBlocks page).length

/-- blocks whose center is at or left of the midpoint. -/
def leftColumn (page : PdfPage) : List PdfBlock :=
  (nonEmptyBlocks page).filter (fun b => decide (blockCenter b ≤ page.width * (1/2)))

/-- blocks whose center is right of the midpoint. -/
def rightColumn (page : PdfPage) : List PdfBlock :=
  (nonEmptyBlocks page).filter (fun b => decide (blockCenter b > page.width * (1/2)))

/-- `_page_blocks_to_lines`: drop empty blocks; detect a two-column layout
when more than 0.3 of the block centers exceed `0.55 * width`; single
column is sorted by `(round y, round x)`; two columns are partitioned at
`width * 0.5` and the left column is emitted before the right. -/
def page_blocks_to_lines (page : PdfPage) : List String :=
  if nonEmptyBlocks page = [] then []
  else if codeRightFrac page > 3/10 then
    (stableSort blockLe (leftColumn page)).flatMap emitBlockLines ++
      (stableSort blockLe (rightColumn page)).flatMap emitBlockLines
  else
    (stableSort blockLe (nonEmptyBlocks page)).flatMap emitBlockLines

/-- `_pdf_text_density`: average character count of the text of the first
(up to) 3 pages. -/
def pdf_text_density (doc : List PdfPage) : ℚ :=
  let n := min 3 doc.length
  if n = 0 then 0
  else (((doc.take n).map (fun p => p.plainText.data.length)).sum : ℚ) / n

/-! ### DOCX list-aware extraction -/

structure DocxPara where
  text : String
  /-- the paragraph carries a list-numbering property (`pPr.numPr`). -/
  isList : Bool
deriving DecidableEq, Repr

structure DocxDoc where
  paragraphs : List DocxPara
  /-- tables -> rows -> cells -> paragraphs. -/
  tables : List (List (List (List DocxPara)))
deriving DecidableEq, Repr

/-- the `push` closure of `_docx_lines_and_lists`. -/
def docxPush (p : DocxPara) : Option String :=
  let t := pyStrip p.text.data
  if t = [] then none
  else if p.isList then some (String.mk (Char.ofNat 0x2022 :: ' ' :: t))
  else some (String.mk t)

def docx_lines_and_lists (doc : DocxDoc) : List String :=
  doc.paragraphs.filterMap docxPush ++
    doc.tables.flatMap (fun tbl => tbl.flatMap (fun row => row.flatMap
      (fun cell => cell.filterMap docxPush)))

/-! ### Multilingual collaborator (`multilingual.py`, caught-total) -/

def supportedLanguages : List (String × String) :=
  [("en","English"),("es","Spanish"),("fr","French"),("de","German"),
   ("it","Italian"),("pt","Portuguese"),("ru","Russian"),("zh","Chinese"),
   ("ja","Japanese"),("ko","Korean"),("hi","Hindi"),("ar","Arabic"),
   ("nl","Dutch"),("sv","Swedish"),("da","Danish"),("no","Norwegian"),
   ("fi","Finnish"),("pl","Polish"),("tr","Turkish"),("he","Hebrew")]

def get_language_name (code : String) : String :=
  (((supportedLanguages.find? (fun kv => kv.1 = code)).map (·.2)).getD "Unknown")

/-! ### External world -/

/-- oracle functions for the external collaborators; each is a fixed
(deterministic) function, fallible ones through `Except`. -/
structure Env where
  /-- `docx.Document` + attribute access. -/
  openDocx : List Nat → Except Unit DocxDoc
  /-- `fitz.open(stream=..)` + page/block access. -/
  openPdf : List Nat → Except Unit (List PdfPage)
  /-- `_ocr_pdf_to_text` seen from outside: internally caught, total. -/
  ocrText : List Nat → String
  /-- `pdfminer.high_level.extract_text` (with the `or ""` applied). -/
  pdfminerText : List Nat → Except Unit String
  /-- `nltk.sent_tokenize` (with the download-and-retry applied). -/
  sentTokenize : String → Except Unit (List String)
  /-- raw `langdetect.detect`. -/
  langDetect : String → Except Unit String
  /-- `bytes.decode(errors="ignore")`. -/
  decodeText : List Nat → String

/-- `MultilingualService.detect_language`: total; every failure and every
unsupported code defaults to `"en"`. -/
def detect_language (env : Env) (text : String) : String :=
  if text.data = [] || (pyStrip text.data).length < 10 then "en"
  else
    let clean := String.intercalate " " (((pyWords text.data).take 500).map String.mk)
    match env.langDetect clean with
    | .ok code => if (supportedLanguages.find? (fun kv => kv.1 = code)).isSome
        then code else "en"
    | .error _ => "en"

/-! ### `_parse_from_lines` -/

/-- the structured fields built by `_parse_from_lines` (the translation
block for non-English documents only ever adds extra keys outside the
`ParsedResume` data model and is wrapped in a catch-all handler, so it is
not modelled). -/
structure Structure where
  summary : String
  skills : List String
  experience : List String
  language : String
  languageName : String
deriving DecidableEq, Repr

/-- category words of the skills fallback regex
`^(languages|tools|technologies|databases|frameworks|cloud|etl|devops|bi|ml)\s*:\s*(.+)$`
(case-insensitive). -/
def categoryWords : List String :=
  ["languages","tools","technologies","databases","frameworks","cloud",
   "etl","devops","bi","ml"]

/-- `cat_re.match(ln.strip())`: the captured group after the colon, if the
stripped line starts with a category word, optional spaces, a colon,
optional spaces and a nonempty remainder. -/
def catMatch (l : List Char) : Option (List Char) :=
  categoryWords.findSome? (fun w =>
    if pyLower (l.take w.length) = w.data then
      match (l.drop w.length).dropWhile pyIsSpace with
      | ':' :: rest =>
        let r := rest.dropWhile pyIsSpace
        if r = [] then none else some r
      | _ => none
    else none)

/-- the category-style fallback skill hunt of `_parse_from_lines`. -/
def categorySkills (lines : List String) : List String :=
  let extra := lines.flatMap (fun ln =>
    match catMatch (pyStrip ln.data) with
    | none => []
    | some grp =>
      (splitAtChars (fun c => c = ',' || c = '/' || c = '|' || c = ';') grp).filterMap
        (fun it => if pyStrip it = [] then none else some (pyStrip it)))
  let out := (extra.foldl (fun st s =>
      let k := pyLower s
      if k ≠ [] && !st.2.contains k && s.length ≤ 40 then
        (st.1 ++ [String.mk s], st.2 ++ [k])
      else st)
    ([], [])).1
  out.take 80

/-- Python `A or B`: first nonempty list. -/
def orList (a b : List String) : List String := if a = [] then b else a

/-- `_parse_from_lines` on an already-cleaned line list. -/
def parse_from_clean_lines (env : Env) (lines : List String) : Structure :=
  let fullText := String.intercalate " " lines
  let detected := detect_language env fullText
  let sections := split_sections lines
  let summary := String.mk ((String.intercalate " "
      (orList (sectGet sections "summary")
        (orList (sectGet sections "professional summary")
          (sectGet sections "profile")))).data.take 1000)
  let skillLines := sectGet sections "skills" ++ sectGet sections "technical skills" ++
      sectGet sections "core competencies" ++ sectGet sections "skills & tools"
  let skills0 := extract_skills skillLines
  let skills := if skills0 = [] then categorySkills lines else skills0
  let expLines := sectGet sections "experience" ++ sectGet sections "work experience" ++
      sectGet sections "professional experience" ++ sectGet sections "employment" ++
      sectGet sections "work history"
  let experience := orList (extract_bullets_from_lines expLines)
      (extract_bullets_from_lines lines)
  { summary := summary, skills := skills, experience := experience,
    language := detected, languageName := get_language_name detected }

/-- `_parse_from_lines` called with a list argument. -/
def parse_from_lines (env : Env) (lines : List String) : Structure :=
  parse_from_clean_lines env (clean_lines (String.intercalate "\n" lines))

/-- `_parse_from_lines` called with a string argument. -/
def parse_from_text (env : Env) (text : String) : Structure :=
  parse_from_clean_lines env (clean_lines text)

/-! ### `parse_pdf` and the experience-recovery fallback -/

def expHeadingWords : List String :=
  ["experience","work experience","professional experience","employment","work history"]

def colonOrSpace (c : Char) : Bool := c = ':' || pyIsSpace c

/-- a match of `(?im)^(experience|...)[:\s]*$` at line-start position `i` of
the joined text: the heading word (case-insensitively), then greedily as
many colon/whitespace characters as still allow `$` (end of text or just
before a newline); returns `match.end()`. -/
def expMatchAt (t : List Char) (i : Nat) (w : List Char) : Option Nat :=
  if pyLower ((t.drop i).take w.length) = w then
    let j := i + w.length
    let run := ((t.drop j).takeWhile colonOrSpace).length
    (List.range (run + 1)).reverse.findSome? (fun k =>
      if j + k = t.length || t.getD (j + k) '?' = '\n' then some (j + k) else none)
  else none

/-- the line-start positions of the joined text (targets of `(?m)^`). -/
def lineStarts (t : List Char) : List Nat :=
  0 :: ((List.range t.length).filter (fun i => t.getD i '?' = '\n')).map (· + 1)

/-- `re.search`: end position of the leftmost match. -/
def expSearchEnd (t : List Char) : Option Nat :=
  (lineStarts t).findSome? (fun i =>
    expHeadingWords.findSome? (fun w => expMatchAt t i w.data))

/-- the sentence-split experience recovery: strip-kept sentences with at
least 6 words, capped at 200, with no de-duplication. -/
def sentenceBullets (sents : List String) : List String :=
  ((sents.filter (fun s => 6 ≤ wordCount s.data)).map
    (fun s => String.mk (pyStrip s.data))).take 200

/-- the chunk handed to the sentence tokenizer: everything after the first
experience-like heading match, or the whole text. -/
def expChunk (allLines : List String) : String :=
  let joined := (String.intercalate "\n" allLines).data
  match expSearchEnd joined with
  | some e => String.mk (joined.drop e)
  | none => String.mk joined

/-- `parse_pdf`; the returned flag records whether the sentence-split
experience-recovery fallback replaced the experience list. -/
def parse_pdf_flagged (env : Env) (b : List Nat) :
    Except Unit (Structure × String × Bool) :=
  match env.openPdf b with
  | .error e => .error e
  | .ok doc =>
    if pdf_text_density doc < 20 then
      .ok (parse_from_text env (env.ocrText b), "pdf_ocr", false)
    else if (doc.flatMap page_blocks_to_lines).length < 5 then
      match env.pdfminerText b with
      | .error e => .error e
      | .ok text => .ok (parse_from_text env text, "pdf_text", false)
    else if (parse_from_lines env (doc.flatMap page_blocks_to_lines)).experience.length ≤ 1 then
      match env.sentTokenize (expChunk (doc.flatMap page_blocks_to_lines)) with
      | .error e => .error e
      | .ok sents =>
        .ok ({ parse_from_lines env (doc.flatMap page_blocks_to_lines) with
          experience := sentenceBullets sents }, "pdf_text", true)
    else
      .ok (parse_from_lines env (doc.flatMap page_blocks_to_lines), "pdf_text", false)

def parse_pdf (env : Env) (b : List Nat) : Except Unit (Structure × String) :=
  (parse_pdf_flagged env b).map (fun r => (r.1, r.2.1))

/-! ### `parse_any` -/

def parse_docx (env : Env) (b : List Nat) : Except Unit (Structure × String) :=
  match env.openDocx b with
  | .error e => .error e
  | .ok doc => .ok (parse_from_lines env (docx_lines_and_lists doc), "docx")

/-- the DOCX ZIP signature check: at least 4 bytes starting `PK\x03\x04`. -/
def zipSignatureOk (b : List Nat) : Bool :=
  decide (b.take 4 = [80, 75, 3, 4]) && decide (4 ≤ b.length)

def isDocxName (fn : String) : Bool :=
  let l := pyLower fn.data
  decide ((l.reverse.take 5).reverse = ".docx".data)

def isPdfName (fn : String) : Bool :=
  let l := pyLower fn.data
  decide ((l.reverse.take 4).reverse = ".pdf".data)

/-- the character filter of the DOCX plain-text fallback:
`(ord(c) < 128 and c.isprintable()) or c.isspace()`. -/
def fallbackFilter (s : String) : String :=
  String.mk (s.data.filter (fun c =>
    (decide (c.toNat < 128) && isPrintableAscii c) || pyIsSpace c))

/-- the final result record (the `ParsedResume` fields; on the `error` path
the source dict carries no language keys, modelled as `none`). -/
structure Resume where
  summary : String
  skills : List String
  experience : List String
  language : Option String
  languageName : Option String
  confidence : ℚ
  extractionPath : String
  rawTextPresent : Bool
deriving DecidableEq, Repr

/-- Python `round(x, 2)` at rational precision. -/
def round2 (q : ℚ) : ℚ := (roundHalfEvenQ (q * 100) : ℚ) / 100

/-- the confidence accumulation of `parse_any`. -/
def confidenceOf (st : Structure) : ℚ :=
  round2 ((if st.summary ≠ "" then (35 : ℚ)/100 else 0) +
    (if st.skills ≠ [] then (25 : ℚ)/100 else 0) +
    (if 5 ≤ st.experience.length then (25 : ℚ)/100 else 0) +
    (if 10 ≤ st.experience.length then (15 : ℚ)/100 else 0))

/-- attach confidence, extraction path and `raw_text_present`. -/
def finishResume (st : Structure) (path : String) : Resume :=
  { summary := st.summary, skills := st.skills, experience := st.experience,
    language := some st.language, languageName := some st.languageName,
    confidence := confidenceOf st, extractionPath := path,
    rawTextPresent := st.summary ≠ "" || st.experience ≠ [] }

def emptyStructure : Structure :=
  { summary := "", skills := [], experience := [], language := "", languageName := "" }

/-- the degraded result of an unrecoverable failure: empty fields, no
language keys, confidence 0. -/
def errorResume : Resume :=
  { summary := "", skills := [], experience := [], language := none,
    languageName := none, confidence := 0, extractionPath := "error",
    rawTextPresent := false }

/-- the DOCX plain-text fallback re-parse (total: every collaborator it
touches is caught-total). -/
def docxFallback (env : Env) (b : List Nat) : Resume :=
  finishResume (parse_from_text env (fallbackFilter (env.decodeText b)))
    "plain_text_fallback"

/-- `parse_any`: dispatch on the (lower-cased) filename extension with the
source's fallback chains.  The plain-text re-parse and the plain-text path
are built from caught-total collaborators, so their inner handlers are
unreachable. -/
def parse_any (env : Env) (filename : String) (b : List Nat) : Resume :=
  if isDocxName filename then
    if zipSignatureOk b then
      match parse_docx env b with
      | .ok (st, path) => finishResume st path
      | .error _ => docxFallback env b
    else docxFallback env b
  else if isPdfName filename then
    match parse_pdf env b with
    | .ok (st, path) => finishResume st path
    | .error _ => errorResume
  else
    finishResume (parse_from_text env (env.decodeText b)) "plain_text"

/-! ### Derived notions used by the claims -/

/-- the pdf sentence-split experience-recovery fallback fired. -/
def pdfFallbackFired (env : Env) (fn : String) (b : List Nat) : Bool :=
  !isDocxName fn && isPdfName fn &&
    (match parse_pdf_flagged env b with
     | .ok r => r.2.2
     | .error _ => false)

/-- no two entries equal under case-insensitive comparison. -/
def ciNodup (l : List String) : Bool :=
  decide (l.map (fun s => pyLower s.data)).Nodup

/-- the confidence formula as the claim states it, read off the four
predicates of the result itself. -/
def claimConfidence (r : Resume) : ℚ :=
  round2 ((if r.summary ≠ "" then (35 : ℚ)/100 else 0) +
    (if r.skills ≠ [] then (25 : ℚ)/100 else 0) +
    (if 5 ≤ r.experience.length then (25 : ℚ)/100 else 0) +
    (if 10 ≤ r.experience.length then (15 : ℚ)/100 else 0))

/-- a trivial concrete environment. -/
def env0 : Env :=
  { openDocx := fun _ => .error (),
    openPdf := fun _ => .error (),
    ocrText := fun _ => "",
    pdfminerText := fun _ => .ok "",
    sentTokenize := fun s => .ok [s],
    langDetect := fun _ => .ok "en",
    decodeText := fun _ => "" }

/-! ### Concrete environments, pages and claim-side definitions -/

/-- a concrete full resume as decoded plain text, reaching confidence 1. -/
def envFull : Env :=
  { env0 with decodeText := fun _ =>
      "Summary\nA dedicated data engineer here.\nSkills\nPy, Go, Rb, Qt.\nExperience\n- Built one.\n- Built two.\n- Built three.\n- Built four.\n- Built five.\n- Built six.\n- Built seven.\n- Built eight.\n- Built nine.\n- Built ten." }

/-- a period-splitting sentence tokenizer for the concrete pdf environment
(the behaviour of `nltk.sent_tokenize` on that input). -/
def sentSplitGo : List Char → List Char → List String
  | acc, [] => if acc = [] then [] else [String.mk acc.reverse]
  | acc, '.' :: rest =>
    match rest with
    | [] => [String.mk ('.' :: acc).reverse]
    | c :: rest2 =>
      if pyIsSpace c then String.mk ('.' :: acc).reverse :: sentSplitGo [] rest2
      else sentSplitGo (c :: '.' :: acc) rest2
  | acc, c :: rest => sentSplitGo (c :: acc) rest

def sentSplit (s : String) : List String := sentSplitGo [] s.data

/-- a single-column pdf page whose text repeats one long sentence: the
regular bullet extraction de-duplicates it down to a single bullet, which
triggers the sentence-split fallback, which keeps both copies. -/
def pdfDupBlock : PdfBlock :=
  { x0 := 10, y0 := 10, x1 := 50, y1 := 80,
    text := "We improved the data pipeline speed.\nWe improved the data pipeline speed.\nAb.\nCd.\nEf." }

def pdfDupPage : PdfPage :=
  { width := 100, blocks := [pdfDupBlock],
    plainText := "We improved the data pipeline speed. More than twenty chars." }

def envDup : Env :=
  { env0 with
    openPdf := fun _ => .ok [pdfDupPage],
    sentTokenize := fun s => .ok (sentSplit s) }

/-- the heading matcher as claim C5 words it, with its all-caps retry read
literally: the normalized line fuzzy-matched against the alias keys in
title-case (cutoff 0.72), the winner mapped back through the alias table. -/
def maybe_heading_claimed (line : String) : Option String :=
  let s := norm_heading line
  if s.data = [] || 60 < s.data.length || s.data.getLast? = some '.' then
    none
  else
    match aliasLookup s with
    | some b => some b
    | none =>
      match getCloseMatch1 s.data (ALL_KEYS.map String.data) 78 100 with
      | some k => aliasLookup (String.mk k)
      | none =>
        if pyIsUpper line.data then
          match getCloseMatch1 s.data ((ALL_KEYS.map String.data).map pyTitle) 72 100 with
          | some k => (ALL_ALIASES.find? (fun kv => pyTitle kv.1.data = k)).map (·.2)
          | none => none
        else none

/-- the heading matcher as amended: reject an empty, overlong or
period-terminated normalized line; else take the exact alias match; else
the best fuzzy match over the alias keys at cutoff 0.78; else, for a fully
upper-case line, the best fuzzy match of the title-cased normalized line
over the alias keys at cutoff 0.72; else no section. -/
def maybe_heading_spec (line : String) : Option String :=
  let s := norm_heading line
  if s.data = [] || 60 < s.data.length || s.data.getLast? = some '.' then
    none
  else
    match aliasLookup s with
    | some b => some b
    | none =>
      match getCloseMatch1 s.data (ALL_KEYS.map String.data) 78 100 with
      | some k => aliasLookup (String.mk k)
      | none =>
        if pyIsUpper line.data then
          match getCloseMatch1 (pyTitle s.data) (ALL_KEYS.map String.data) 72 100 with
          | some k => aliasLookup (String.mk k)
          | none => none
        else none

/-- the claim's classification criterion: the fraction of kept blocks whose
center lies in the right half of the page. -/
def claimRightHalfFrac (page : PdfPage) : ℚ :=
  ((nonEmptyBlocks page).countP
      (fun b => decide (blockCenter b > page.width * (1/2)))) /
    (nonEmptyBlocks page).length

def pageMidBlockA : PdfBlock := { x0 := 48, y0 := 10, x1 := 56, y1 := 20, text := "RIGHTA" }

def pageMidBlockB : PdfBlock := { x0 := 10, y0 := 30, x1 := 30, y1 := 40, text := "LEFTB" }

/-- both block centers (52 and 20) are left of `0.55 * width = 55`, but one
is right of the midpoint 50. -/
def pageMid : PdfPage :=
  { width := 100, blocks := [pageMidBlockA, pageMidBlockB], plainText := "" }

def pageTwoColBlockL : PdfBlock := { x0 := 10, y0 := 50, x1 := 30, y1 := 60, text := "L1" }

def pageTwoColBlockR : PdfBlock := { x0 := 70, y0 := 5, x1 := 90, y1 := 15, text := "R1" }

/-- a genuine two-column page whose right column starts at a smaller
y-coordinate. -/
def pageTwoCol : PdfPage :=
  { width := 100, blocks := [pageTwoColBlockL, pageTwoColBlockR], plainText := "" }

/-- one transition of the state machine as claim C8 words it, on a state
(bullets so far, accumulator of wrapped-line fragments): a marked line
flushes and starts a new bullet from its remainder; a blank line flushes;
a period-terminated line of at least 5 words with an empty accumulator
becomes a bullet directly; any other line is appended to the accumulator. -/
def bulletStep (st : List String × List String) (ln : String) :
    List String × List String :=
  match afterMarker ln.data with
  | some rem => (flushAcc st.1 st.2 ++ [String.mk (pyStrip rem)], [])
  | none =>
    if pyStrip ln.data = [] then (flushAcc st.1 st.2, [])
    else if (pyStrip ln.data).getLast? = some '.' && 5 ≤ wordCount ln.data &&
        st.2 = [] then
      (st.1 ++ [String.mk (pyStrip ln.data)], st.2)
    else (st.1, st.2 ++ [String.mk (pyStrip ln.data)])

/-- the machine of claim C8: run the transitions, flush the remaining
accumulator, de-duplicate case-insensitively and cap at 200. -/
def extract_bullets_spec (lines : List String) : List String :=
  (dedupeCI (flushAcc (lines.foldl bulletStep ([], [])).1
    (lines.foldl bulletStep ([], [])).2)).take 200

/-- the skills extractor as claim C9 words it: comma-dense only with more
than 3 commas, and de-duplication that drops only case-insensitive
repeats. -/
def extract_skills_claimed (lines : List String) : List String :=
  (((skillFilter
      (if 3 < (skillBlob lines).countP (fun c => c = ',') then
        splitAtChars isDenseDelim (skillBlob lines)
      else
        splitAtChars isBroadDelim (skillBlob lines))).foldl
    (fun st s =>
      let k := pyLower s
      if !st.2.contains k then (st.1 ++ [String.mk s], st.2 ++ [k]) else st)
    ([], [])).1).take 80

/-- the skills extractor as amended: the blob is comma-dense already at 3
commas (`len(text.split(","))` exceeds 3), and the de-duplication also
drops any fragment whose case-insensitive key is shorter than 2
characters. -/
def extract_skills_amended (lines : List String) : List String :=
  (((skillFilter
      (if (skillBlob lines).contains ',' &&
          3 ≤ (skillBlob lines).countP (fun c => c = ',') then
        splitAtChars isDenseDelim (skillBlob lines)
      else
        splitAtChars isBroadDelim (skillBlob lines))).foldl
    (fun st s =>
      let k := pyStrip (pyLower s)
      if 1 < k.length && !st.2.contains k then
        (st.1 ++ [String.mk s], st.2 ++ [k])
      else st)
    ([], [])).1).take 80

/-! ### Shape of every `parse_any` result -/

theorem parse_docx_ok (env : Env) (b : List Nat) (p : Structure × String)
    (h : parse_docx env b = .ok p) :
    ∃ doc, env.openDocx b = .ok doc ∧
      p = (parse_from_lines env (docx_lines_and_lists doc), "docx") := by
  unfold parse_docx at h
  cases hod : env.openDocx b <;> rw [hod] at h
  · exact absurd h (by simp)
  · exact ⟨_, rfl, by injection h with h2; exact h2.symm⟩

theorem parse_pdf_flagged_ok (env : Env) (b : List Nat) (r : Structure × String × Bool)
    (h : parse_pdf_flagged env b = .ok r) :
    (∃ text, r = (parse_from_text env text, "pdf_ocr", false)) ∨
    (∃ text, r = (parse_from_text env text, "pdf_text", false)) ∨
    (∃ ls, r = (parse_from_lines env ls, "pdf_text", false)) ∨
    (∃ ls sents, r = ({ parse_from_lines env ls with
        experience := sentenceBullets sents }, "pdf_text", true)) := by
  unfold parse_pdf_flagged at h
  cases hop : env.openPdf b <;> simp only [hop] at h
  · exact absurd h (by simp)
  case ok doc =>
  by_cases hden : pdf_text_density doc < 20
  · rw [if_pos hden] at h
    exact Or.inl ⟨_, (Except.ok.inj h).symm⟩
  · rw [if_neg hden] at h
    by_cases hlen : (doc.flatMap page_blocks_to_lines).length < 5
    · rw [if_pos hlen] at h
      cases hpm : env.pdfminerText b <;> rw [hpm] at h
      · exact absurd h (by simp)
      · exact Or.inr (Or.inl ⟨_, (Except.ok.inj h).symm⟩)
    · rw [if_neg hlen] at h
      by_cases hexp :
          (parse_from_lines env (doc.flatMap page_blocks_to_lines)).experience.length ≤ 1
      · rw [if_pos hexp] at h
        cases hst : env.sentTokenize (expChunk (doc.flatMap page_blocks_to_lines)) <;>
          rw [hst] at h
        · exact absurd h (by simp)
        · exact Or.inr (Or.inr (Or.inr ⟨_, _, (Except.ok.inj h).symm⟩))
      · rw [if_neg hexp] at h
        exact Or.inr (Or.inr (Or.inl ⟨_, (Except.ok.inj h).symm⟩))

/-- every result is either a finished structure produced by
`_parse_from_lines` (possibly with the experience list replaced by the pdf
sentence-split fallback) or the degraded error result. -/
theorem parse_any_shape (env : Env) (fn : String) (b : List Nat) :
    (∃ ls path, parse_any env fn b = finishResume (parse_from_clean_lines env ls) path ∧
      (path = "docx" ∨ path = "pdf_ocr" ∨ path = "pdf_text" ∨ path = "plain_text" ∨
        path = "plain_text_fallback") ∧ pdfFallbackFired env fn b = false) ∨
    (∃ ls sents, pdfFallbackFired env fn b = true ∧
      parse_any env fn b = finishResume
        { parse_from_clean_lines env ls with experience := sentenceBullets sents }
        "pdf_text") ∨
    parse_any env fn b = errorResume := by
  unfold parse_any pdfFallbackFired
  by_cases hdoc : isDocxName fn
  · simp only [hdoc, if_true, Bool.not_true, Bool.false_and, Bool.and_false]
    by_cases hzip : zipSignatureOk b
    · simp only [hzip, if_true]
      cases hpd : parse_docx env b with
      | error e =>
        exact Or.inl ⟨_, "plain_text_fallback", rfl, by simp, by simp⟩
      | ok p =>
        obtain ⟨doc, -, hp⟩ := parse_docx_ok env b p hpd
        subst hp
        exact Or.inl ⟨_, "docx", rfl, by simp, by simp⟩
    · simp only [hzip, if_false]
      exact Or.inl ⟨_, "plain_text_fallback", rfl, by simp, by simp⟩
  · simp only [hdoc, if_false, Bool.not_false, Bool.true_and]
    by_cases hpdf : isPdfName fn
    · simp only [hpdf, if_true, Bool.true_and]
      cases hpp : parse_pdf_flagged env b with
      | error e =>
        simp only [parse_pdf, hpp, Except.map]
        exact Or.inr (Or.inr rfl)
      | ok r =>
        simp only [parse_pdf, hpp, Except.map]
        rcases parse_pdf_flagged_ok env b r hpp with ⟨t, hr⟩ | ⟨t, hr⟩ | ⟨ls, hr⟩ | ⟨ls, sents, hr⟩
        · subst hr
          exact Or.inl ⟨_, "pdf_ocr", rfl, by simp, by simp⟩
        · subst hr
          exact Or.inl ⟨_, "pdf_text", rfl, by simp, by simp⟩
        · subst hr
          exact Or.inl ⟨_, "pdf_text", rfl, by simp, by simp⟩
        · subst hr
          exact Or.inr (Or.inl ⟨_, sents, by simp, rfl⟩)
    · simp only [hpdf, if_false, Bool.false_and, Bool.and_false]
      exact Or.inl ⟨_, "plain_text", rfl, by simp, by simp⟩

/-! ### C1: the confidence score -/

theorem confidenceOf_bounds (st : Structure) :
    0 ≤ confidenceOf st ∧ confidenceOf st ≤ 1 := by
  unfold confidenceOf
  split_ifs <;> exact ⟨by decide, by decide⟩

theorem claimConfidence_congr (r r' : Resume)
    (h1 : r.summary = "" ↔ r'.summary = "")
    (h2 : r.skills = [] ↔ r'.skills = [])
    (h3 : 5 ≤ r.experience.length ↔ 5 ≤ r'.experience.length)
    (h4 : 10 ≤ r.experience.length ↔ 10 ≤ r'.experience.length) :
    claimConfidence r = claimConfidence r' := by
  unfold claimConfidence
  rw [if_congr (not_congr h1) rfl rfl, if_congr (not_congr h2) rfl rfl,
    if_congr h3 rfl rfl, if_congr h4 rfl rfl]

/-- C1: for every input, the confidence of the `parse_any` result equals the
sum 0.35 (summary nonempty) + 0.25 (skills nonempty) + 0.25 (at least 5
experience bullets) + 0.15 (at least 10), rounded to two decimals; it lies
in [0, 1], the value 1 is attained, and it is a pure function of those four
predicates alone. -/
theorem C1_confidence_formula :
    (∀ env fn b, (parse_any env fn b).confidence = claimConfidence (parse_any env fn b)) ∧
    (∀ env fn b, 0 ≤ (parse_any env fn b).confidence ∧ (parse_any env fn b).confidence ≤ 1) ∧
    (∃ env fn b, (parse_any env fn b).confidence = 1) ∧
    (∀ e1 f1 b1 e2 f2 b2,
      ((parse_any e1 f1 b1).summary = "" ↔ (parse_any e2 f2 b2).summary = "") →
      ((parse_any e1 f1 b1).skills = [] ↔ (parse_any e2 f2 b2).skills = []) →
      (5 ≤ (parse_any e1 f1 b1).experience.length ↔
        5 ≤ (parse_any e2 f2 b2).experience.length) →
      (10 ≤ (parse_any e1 f1 b1).experience.length ↔
        10 ≤ (parse_any e2 f2 b2).experience.length) →
      (parse_any e1 f1 b1).confidence = (parse_any e2 f2 b2).confidence) := by
  have hform : ∀ env fn b,
      (parse_any env fn b).confidence = claimConfidence (parse_any env fn b) := by
    intro env fn b
    rcases parse_any_shape env fn b with ⟨ls, path, heq, -, -⟩ | ⟨ls, sents, -, heq⟩ | heq
    · rw [heq]; rfl
    · rw [heq]; rfl
    · rw [heq]; decide
  refine ⟨hform, ?_, ?_, ?_⟩
  · intro env fn b
    rcases parse_any_shape env fn b with ⟨ls, path, heq, -, -⟩ | ⟨ls, sents, -, heq⟩ | heq
    · rw [heq]; exact confidenceOf_bounds _
    · rw [heq]; exact confidenceOf_bounds _
    · rw [heq]; exact ⟨by decide, by decide⟩
  · exact ⟨envFull, "resume.txt", [], by decide⟩
  · intro e1 f1 b1 e2 f2 b2 h1 h2 h3 h4
    rw [hform e1 f1 b1, hform e2 f2 b2]
    exact claimConfidence_congr _ _ h1 h2 h3 h4

theorem C1_confidence_witness :
    (parse_any env0 "a.txt" []).confidence = (parse_any env0 "b.txt" []).confidence :=
  C1_confidence_formula.2.2.2 env0 "a.txt" [] env0 "b.txt" []
    (by decide) (by decide) (by decide) (by decide)

/-! ### C4: determinism -/

/-- C4: with every collaborator a fixed function (the OCR engine assumed
deterministic as the claim states), parsing byte-identical input twice
yields identical results in every `ParsedResume` field. -/
theorem C4_determinism (env : Env) (fn : String) (b1 b2 : List Nat) (h : b1 = b2) :
    parse_any env fn b1 = parse_any env fn b2 := by rw [h]

theorem C4_determinism_witness :
    parse_any envFull "resume.txt" [104, 105] = parse_any envFull "resume.txt" [104, 105] :=
  C4_determinism envFull "resume.txt" [104, 105] [104, 105] rfl

/-! ### C10: the summary bound -/

/-- C10: the summary field never exceeds 1000 characters, and inside
`_parse_from_lines` it is exactly the first 1000 characters of the joined
summary-section text. -/
theorem C10_summary_truncated :
    (∀ env fn b, (parse_any env fn b).summary.length ≤ 1000) ∧
    (∀ env lines, (parse_from_clean_lines env lines).summary =
      String.mk ((String.intercalate " "
        (orList (sectGet (split_sections lines) "summary")
          (orList (sectGet (split_sections lines) "professional summary")
            (sectGet (split_sections lines) "profile")))).data.take 1000)) := by
  constructor
  · intro env fn b
    have hsum : ∀ ls, (parse_from_clean_lines env ls).summary.length ≤ 1000 := by
      intro ls
      show (String.mk _).length ≤ 1000
      show (List.take 1000 _).length ≤ 1000
      rw [List.length_take]
      exact min_le_left _ _
    rcases parse_any_shape env fn b with ⟨ls, path, heq, -, -⟩ | ⟨ls, sents, -, heq⟩ | heq
    · rw [heq]; exact hsum ls
    · rw [heq]; exact hsum ls
    · rw [heq]; decide
  · intro env lines
    rfl

/-! ### C2: the error-handling boundary -/

/-- C2: `parse_any` always returns a well-formed result whose extraction
path is one of the six path names; a `.docx` file without the ZIP signature
always degrades to the `plain_text_fallback` re-parse, and so does a
`.docx` whose structured parse fails for any reason; and any result on the
`error` path has empty summary, skills and experience and confidence 0. -/
theorem C2_error_boundary :
    (∀ env fn b, (parse_any env fn b).extractionPath ∈
      (["docx", "pdf_ocr", "pdf_text", "plain_text", "plain_text_fallback",
        "error"] : List String)) ∧
    (∀ env fn b, isDocxName fn = true → zipSignatureOk b = false →
      (parse_any env fn b).extractionPath = "plain_text_fallback") ∧
    (∀ env fn b, isDocxName fn = true → parse_docx env b = Except.error () →
      (parse_any env fn b).extractionPath = "plain_text_fallback") ∧
    (∀ env fn b, (parse_any env fn b).extractionPath = "error" →
      (parse_any env fn b).summary = "" ∧ (parse_any env fn b).skills = [] ∧
      (parse_any env fn b).experience = [] ∧ (parse_any env fn b).confidence = 0) := by
  refine ⟨?_, ?_, ?_, ?_⟩
  · intro env fn b
    rcases parse_any_shape env fn b with ⟨ls, path, heq, hp, -⟩ | ⟨ls, sents, -, heq⟩ | heq
    · rw [heq]
      rcases hp with h | h | h | h | h <;> subst h <;> simp [finishResume]
    · rw [heq]; simp [finishResume]
    · rw [heq]; simp [errorResume]
  · intro env fn b hdoc hzip
    unfold parse_any
    simp only [hdoc, hzip, if_true, if_false, Bool.false_eq_true, reduceIte]
    rfl
  · intro env fn b hdoc hpd
    unfold parse_any
    simp only [hdoc, if_true, reduceIte]
    by_cases hzip : zipSignatureOk b = true
    · simp only [hzip, if_true, reduceIte, hpd]
      rfl
    · rw [Bool.not_eq_true] at hzip
      simp only [hzip, if_false, Bool.false_eq_true, reduceIte]
      rfl
  · intro env fn b herr
    rcases parse_any_shape env fn b with ⟨ls, path, heq, hp, -⟩ | ⟨ls, sents, -, heq⟩ | heq
    · rw [heq] at herr
      rcases hp with h | h | h | h | h <;> subst h <;> simp [finishResume] at herr
    · rw [heq] at herr
      simp [finishResume] at herr
    · rw [heq]
      exact ⟨rfl, rfl, rfl, rfl⟩

theorem C2_error_boundary_witness :
    (parse_any env0 "resume.docx" [0, 1, 2]).extractionPath = "plain_text_fallback" ∧
    (parse_any env0 "resume.docx" [80, 75, 3, 4]).extractionPath = "plain_text_fallback" ∧
    (parse_any env0 "broken.pdf" []).summary = "" ∧
    (parse_any env0 "broken.pdf" []).confidence = 0 :=
  ⟨C2_error_boundary.2.1 env0 "resume.docx" [0, 1, 2] (by decide) (by decide),
   C2_error_boundary.2.2.1 env0 "resume.docx" [80, 75, 3, 4] (by decide) rfl,
   (C2_error_boundary.2.2.2 env0 "broken.pdf" [] (by decide)).1,
   (C2_error_boundary.2.2.2 env0 "broken.pdf" [] (by decide)).2.2.2⟩

/-! ### C3: case-insensitive de-duplication -/

/-- every seen-set-guarded accumulation fold yields an output whose keys
are pairwise distinct: the condition must entail that the key is not yet in
the seen set, and the key of an embedded item must be computable from it. -/
theorem foldDedupNodup {α : Type} (emb : α → String) (kf : α → List Char)
    (cond : List Char → α → List (List Char) → Bool)
    (hcond : ∀ k a seen, cond k a seen = true → k ∉ seen)
    (key : String → List Char) (hkf : ∀ a, key (emb a) = kf a)
    (l : List α) (acc : List String) (seen : List (List Char))
    (hsub : ∀ s, s ∈ acc.map key → s ∈ seen)
    (hnd : (acc.map key).Nodup) :
    (((l.foldl (fun st a =>
        if cond (kf a) a st.2 then (st.1 ++ [emb a], st.2 ++ [kf a]) else st)
      (acc, seen)).1.map key)).Nodup := by
  induction l generalizing acc seen with
  | nil => exact hnd
  | cons a rest ih =>
    simp only [List.foldl_cons]
    by_cases hc : cond (kf a) a seen = true
    · simp only [hc, if_true]
      refine ih (acc ++ [emb a]) (seen ++ [kf a]) ?_ ?_
      · intro s hs
        simp only [List.map_append, List.map_cons, List.map_nil, List.mem_append,
          List.mem_singleton, hkf] at hs
        rcases hs with hs | hs
        · exact List.mem_append_left _ (hsub s hs)
        · exact List.mem_append_right _ (by simp [hs])
      · simp only [List.map_append, List.map_cons, List.map_nil, hkf]
        rw [List.nodup_append]
        refine ⟨hnd, List.nodup_singleton _, ?_⟩
        intro s hs hmem
        simp only [List.mem_singleton] at hmem
        subst hmem
        exact hcond _ _ _ hc (hsub _ hs)
    · simp only [hc, if_false]
      exact ih acc seen hsub hnd

theorem contains_true_mem (k : List Char) (seen : List (List Char))
    (h : seen.contains k = true) : k ∈ seen := by
  simpa using h

theorem contains_false_not_mem (k : List Char) (seen : List (List Char))
    (h : seen.contains k = false) : k ∉ seen := by
  intro hmem
  have hc : seen.contains k = true := by simpa using hmem
  rw [h] at hc
  exact Bool.false_ne_true hc

theorem dedupeCI_nodup (l : List String) :
    ((dedupeCI l).map (fun s => pyLower s.data)).Nodup := by
  have h := foldDedupNodup (fun b => b) (fun b => pyLower b.data)
    (fun k _ seen => !seen.contains k)
    (by
      intro k a seen h
      rw [Bool.not_eq_true'] at h
      exact contains_false_not_mem _ _ h)
    (fun s => pyLower s.data) (fun _ => rfl) l [] [] (by simp) (by simp)
  exact h

theorem nodup_map_take {β : Type} (f : String → β) (n : Nat) (l : List String)
    (h : (l.map f).Nodup) : ((l.take n).map f).Nodup := by
  rw [List.map_take]
  exact h.sublist (List.take_sublist _ _)

theorem extract_bullets_ciNodup (lines : List String) :
    ciNodup (extract_bullets_from_lines lines) = true := by
  unfold ciNodup
  rw [decide_eq_true_eq]
  exact nodup_map_take _ 200 _ (dedupeCI_nodup _)

theorem extract_skills_ciNodup (lines : List String) :
    ciNodup (extract_skills lines) = true := by
  unfold ciNodup
  rw [decide_eq_true_eq]
  unfold extract_skills
  refine nodup_map_take _ 80 _ ?_
  refine List.Nodup.of_map pyStrip ?_
  rw [List.map_map]
  exact foldDedupNodup (fun s => String.mk s) (fun s => pyStrip (pyLower s))
    (fun k _ seen => k ≠ [] && !seen.contains k && 1 < k.length)
    (by
      intro k a seen h
      have h2 : (!seen.contains k) = true :=
        ((Bool.and_eq_true _ _).mp ((Bool.and_eq_true _ _).mp h).1).2
      rw [Bool.not_eq_true'] at h2
      exact contains_false_not_mem _ _ h2)
    (pyStrip ∘ fun s => pyLower s.data) (fun _ => rfl) _ [] [] (by simp) (by simp)

theorem categorySkills_ciNodup (lines : List String) :
    ciNodup (categorySkills lines) = true := by
  unfold ciNodup
  rw [decide_eq_true_eq]
  unfold categorySkills
  refine nodup_map_take _ 80 _ ?_
  exact foldDedupNodup (fun s => String.mk s) (fun s => pyLower s)
    (fun k a seen => k ≠ [] && !seen.contains k && a.length ≤ 40)
    (by
      intro k a seen h
      have h2 : (!seen.contains k) = true :=
        ((Bool.and_eq_true _ _).mp ((Bool.and_eq_true _ _).mp h).1).2
      rw [Bool.not_eq_true'] at h2
      exact contains_false_not_mem _ _ h2)
    (fun s => pyLower s.data) (fun _ => rfl) _ [] [] (by simp) (by simp)

theorem parse_from_clean_lines_skills_ciNodup (env : Env) (ls : List String) :
    ciNodup (parse_from_clean_lines env ls).skills = true := by
  show ciNodup (if extract_skills _ = [] then categorySkills _ else extract_skills _) = true
  split
  · exact categorySkills_ciNodup _
  · exact extract_skills_ciNodup _

theorem parse_from_clean_lines_experience_ciNodup (env : Env) (ls : List String) :
    ciNodup (parse_from_clean_lines env ls).experience = true := by
  show ciNodup (orList (extract_bullets_from_lines _) (extract_bullets_from_lines _)) = true
  unfold orList
  split
  · exact extract_bullets_ciNodup _
  · exact extract_bullets_ciNodup _

/-- C3 (amended): skills are case-insensitively duplicate-free on every
path, and so is experience except when the pdf sentence-split
experience-recovery fallback fires, which performs no de-duplication. -/
theorem C3_dedup_amended (env : Env) (fn : String) (b : List Nat) :
    ciNodup (parse_any env fn b).skills = true ∧
    (pdfFallbackFired env fn b = false →
      ciNodup (parse_any env fn b).experience = true) := by
  rcases parse_any_shape env fn b with ⟨ls, path, heq, -, -⟩ | ⟨ls, sents, hff, heq⟩ | heq
  · rw [heq]
    exact ⟨parse_from_clean_lines_skills_ciNodup env ls, fun _ =>
      parse_from_clean_lines_experience_ciNodup env ls⟩
  · rw [heq]
    refine ⟨parse_from_clean_lines_skills_ciNodup env ls, ?_⟩
    intro hf
    rw [hff] at hf
    exact absurd hf (by decide)
  · rw [heq]
    exact ⟨by decide, fun _ => by decide⟩

theorem C3_dedup_witness :
    ciNodup (parse_any envFull "resume.txt" []).experience = true :=
  (C3_dedup_amended envFull "resume.txt" []).2 (by decide)

/-- C3 counterexample: on this pdf the returned experience list contains
the same sentence twice, so the de-duplication claim fails as stated. -/
theorem C3_dedup_counterexample :
    (parse_any envDup "resume.pdf" [1]).experience =
      ["We improved the data pipeline speed.",
       "We improved the data pipeline speed."] ∧
    ciNodup (parse_any envDup "resume.pdf" [1]).experience = false := by
  constructor
  · decide
  · decide

/-! ### C6: case sensitivity of heading matching -/

theorem charEqIffToNat (c d : Char) : c = d ↔ c.toNat = d.toNat :=
  ⟨fun h => by rw [h], fun h => Char.ext (UInt32.ext (by exact_mod_cast h))⟩

theorem toNatOfNatValid (n : Nat) (h : n.isValidChar) : (Char.ofNat n).toNat = n := by
  unfold Char.ofNat
  rw [dif_pos h]
  simp [Char.ofNatAux, Char.toNat, UInt32.toNat, BitVec.toNat_ofNatLt]

theorem asciiUpperBounds (c : Char) (h : isAsciiUpper c = true) :
    65 ≤ c.toNat ∧ c.toNat ≤ 90 := by
  simpa [isAsciiUpper, Bool.and_eq_true, decide_eq_true_eq] using h

theorem pyLowerChar_toNat (c : Char) :
    (pyLowerChar c).toNat = if isAsciiUpper c then c.toNat + 32 else c.toNat := by
  unfold pyLowerChar
  by_cases h : isAsciiUpper c = true
  · rw [if_pos h, if_pos h]
    have hb := asciiUpperBounds c h
    exact toNatOfNatValid _ (Or.inl (by omega))
  · rw [if_neg h, if_neg h]

theorem pyIsSpace_lowerChar (c : Char) : pyIsSpace (pyLowerChar c) = pyIsSpace c := by
  unfold pyIsSpace
  rw [pyLowerChar_toNat]
  by_cases h : isAsciiUpper c = true
  · have hb := asciiUpperBounds c h
    rw [if_pos h]
    have hL : ∀ m : Nat, 65 ≤ m → m ≤ 90 →
        (decide (m + 32 = 32) || decide (m + 32 = 9) || decide (m + 32 = 10) ||
          decide (m + 32 = 13) || decide (m + 32 = 11) || decide (m + 32 = 12)) = false := by
      intro m h1 h2
      simp only [Bool.or_eq_false_iff, decide_eq_false_iff_not]
      omega
    have hR : ∀ m : Nat, 65 ≤ m → m ≤ 90 →
        (decide (m = 32) || decide (m = 9) || decide (m = 10) ||
          decide (m = 13) || decide (m = 11) || decide (m = 12)) = false := by
      intro m h1 h2
      simp only [Bool.or_eq_false_iff, decide_eq_false_iff_not]
      omega
    rw [hL c.toNat hb.1 hb.2, hR c.toNat hb.1 hb.2]
  · rw [if_neg h]

theorem isTrailPunct_lowerChar (c : Char) :
    isTrailPunct (pyLowerChar c) = isTrailPunct c := by
  unfold isTrailPunct
  rw [pyLowerChar_toNat]
  by_cases h : isAsciiUpper c = true
  · have hb := asciiUpperBounds c h
    rw [if_pos h]
    have hL : (decide (c.toNat + 32 = 58) || decide (c.toNat + 32 = 45) ||
        decide (c.toNat + 32 = 8211) || decide (c.toNat + 32 = 8212)) = false := by
      simp only [Bool.or_eq_false_iff, decide_eq_false_iff_not]
      omega
    have hR : (decide (c.toNat = 58) || decide (c.toNat = 45) ||
        decide (c.toNat = 8211) || decide (c.toNat = 8212)) = false := by
      simp only [Bool.or_eq_false_iff, decide_eq_false_iff_not]
      omega
    rw [hL, hR]
  · rw [if_neg h]

theorem dropWhile_lower (p : Char → Bool) (hp : ∀ c, p (pyLowerChar c) = p c)
    (l : List Char) : (pyLower l).dropWhile p = pyLower (l.dropWhile p) := by
  unfold pyLower
  rw [List.dropWhile_map]
  have : (p ∘ pyLowerChar) = p := funext hp
  rw [this]

theorem strip_lower (l : List Char) : pyStrip (pyLower l) = pyLower (pyStrip l) := by
  unfold pyStrip
  rw [dropWhile_lower pyIsSpace pyIsSpace_lowerChar]
  show ((pyLower _).reverse.dropWhile pyIsSpace).reverse = _
  rw [show ∀ m : List Char, (pyLower m).reverse = pyLower m.reverse from
    fun m => (List.map_reverse _ _).symm]
  rw [dropWhile_lower pyIsSpace pyIsSpace_lowerChar]
  rw [show ∀ m : List Char, (pyLower m).reverse = pyLower m.reverse from
    fun m => (List.map_reverse _ _).symm]

theorem stripTrail_lower (l : List Char) :
    ((pyLower l).reverse.dropWhile isTrailPunct).reverse =
      pyLower ((l.reverse.dropWhile isTrailPunct).reverse) := by
  rw [show (pyLower l).reverse = pyLower l.reverse from (List.map_reverse _ _).symm]
  rw [dropWhile_lower isTrailPunct isTrailPunct_lowerChar]
  exact (List.map_reverse _ _).symm

theorem collapseWSGo_lower (flag : Bool) (l : List Char) :
    collapseWSGo flag (pyLower l) = pyLower (collapseWSGo flag l) := by
  induction l generalizing flag with
  | nil => rfl
  | cons c rest ih =>
    show collapseWSGo flag (pyLowerChar c :: pyLower rest) = _
    unfold collapseWSGo
    rw [pyIsSpace_lowerChar]
    by_cases hs : pyIsSpace c = true
    · rw [if_pos hs, if_pos hs]
      cases flag with
      | true => simpa using ih true
      | false =>
        show ' ' :: collapseWSGo true (pyLower rest) = pyLower (' ' :: collapseWSGo true rest)
        rw [ih true]
        rfl
    · rw [if_neg hs, if_neg hs]
      show pyLowerChar c :: collapseWSGo false (pyLower rest) = _
      rw [ih false]
      rfl

theorem pyLowerChar_idem (c : Char) : pyLowerChar (pyLowerChar c) = pyLowerChar c := by
  have hup : isAsciiUpper (pyLowerChar c) = false := by
    unfold isAsciiUpper
    rw [pyLowerChar_toNat]
    by_cases h : isAsciiUpper c = true
    · have hb := asciiUpperBounds c h
      rw [if_pos h]
      simp only [Bool.and_eq_false_iff, decide_eq_false_iff_not]
      omega
    · rw [if_neg h]
      simpa [isAsciiUpper] using h
  show (if isAsciiUpper (pyLowerChar c) = true then _ else pyLowerChar c) = pyLowerChar c
  rw [hup]
  simp

theorem pyLower_idem (l : List Char) : pyLower (pyLower l) = pyLower l := by
  unfold pyLower
  rw [List.map_map]
  exact List.map_congr_left (fun c _ => pyLowerChar_idem c)

/-- `_norm_heading` is determined by the lower-cased raw line. -/
theorem norm_heading_congr (l1 l2 : String) (h : pyLower l1.data = pyLower l2.data) :
    norm_heading l1 = norm_heading l2 := by
  unfold norm_heading
  have key : ∀ m : List Char,
      pyLower (collapseWS ((pyStrip m).reverse.dropWhile isTrailPunct).reverse) =
        pyLower (collapseWS ((pyStrip (pyLower m)).reverse.dropWhile isTrailPunct).reverse) := by
    intro m
    have hc : ∀ w : List Char, collapseWS (pyLower w) = pyLower (collapseWS w) :=
      fun w => collapseWSGo_lower false w
    rw [strip_lower, stripTrail_lower, hc, pyLower_idem]
  show String.mk _ = String.mk _
  rw [key l1.data, key l2.data, h]

/-- C6 counterexample: two case variants of one line (so equal after
lower-casing) on which the matcher disagrees, because only the fully
upper-case variant gets the looser title-cased fuzzy retry. -/
theorem C6_case_counterexample :
    pyLower "zxperenc".data = pyLower "ZXPERENC".data ∧
    maybe_heading "zxperenc" = none ∧
    maybe_heading "ZXPERENC" = some "experience" :=
  ⟨by decide, by decide, by decide⟩

/-- C6 (amended): heading matching is case-insensitive among case variants
with the same `isupper` status (the all-caps retry is the only
case-sensitive ingredient), and both "Summery" and "Summary" map to the
canonical summary section. -/
theorem C6_case_amended :
    (∀ l1 l2 : String, pyLower l1.data = pyLower l2.data →
      pyIsUpper l1.data = pyIsUpper l2.data →
      maybe_heading l1 = maybe_heading l2) ∧
    maybe_heading "Summery" = some "summary" ∧
    maybe_heading "Summary" = some "summary" := by
  refine ⟨?_, by decide, by decide⟩
  intro l1 l2 hlow hup
  unfold maybe_heading
  rw [norm_heading_congr l1 l2 hlow, hup]

theorem C6_case_witness : maybe_heading "Skills" = maybe_heading "sKiLLs" :=
  C6_case_amended.1 "Skills" "sKiLLs" (by decide) (by decide)

/-! ### C5: the heading matcher algorithm -/

/-- C5 counterexample: on "OPROJEYS" the code's retry (title-cased query
against the plain keys) matches "projects", while the claim's reading
(query against title-cased keys) matches nothing. -/
theorem C5_heading_counterexample :
    maybe_heading "OPROJEYS" = some "projects" ∧
    maybe_heading_claimed "OPROJEYS" = none :=
  ⟨by decide, by decide⟩

/-- C5 (amended): the matcher behaves exactly as described once the
all-caps retry is read as matching the title-cased normalized line against
the (plain) alias keys. -/
theorem C5_heading_amended (line : String) :
    maybe_heading line = maybe_heading_spec line := rfl

theorem C5_heading_witness : maybe_heading "ZXPERENC" = maybe_heading_spec "ZXPERENC" :=
  C5_heading_amended "ZXPERENC"

/-! ### C7: two-column classification and ordering -/

/-- C7 counterexample: on `pageMid` the claim's right-half criterion says
two-column (fraction 1/2 > 0.3), yet the code classifies single-column and
emits the right-of-midpoint block's line first, so left-before-right
fails. -/
theorem C7_two_column_counterexample :
    claimRightHalfFrac pageMid > 3/10 ∧
    blockCenter pageMidBlockA > pageMid.width * (1/2) ∧
    blockCenter pageMidBlockB ≤ pageMid.width * (1/2) ∧
    page_blocks_to_lines pageMid = ["RIGHTA", "LEFTB"] ∧
    page_blocks_to_lines pageMid ≠
      (stableSort blockLe (leftColumn pageMid)).flatMap emitBlockLines ++
        (stableSort blockLe (rightColumn pageMid)).flatMap emitBlockLines :=
  ⟨by decide, by decide, by decide, by decide, by decide⟩

/-- C7 (amended): a page is classified two-column exactly when more than
0.3 of its nonempty blocks have center beyond `0.55 * width`; the emitted
line sequence is then the left-of-midpoint column followed by the
right-of-midpoint column, each sorted by (rounded y, rounded x). -/
theorem C7_two_column_amended (page : PdfPage) (h : codeRightFrac page > 3/10) :
    page_blocks_to_lines page =
      (stableSort blockLe (leftColumn page)).flatMap emitBlockLines ++
        (stableSort blockLe (rightColumn page)).flatMap emitBlockLines := by
  unfold page_blocks_to_lines
  have hb : ¬ nonEmptyBlocks page = [] := by
    intro he
    unfold codeRightFrac at h
    rw [he] at h
    norm_num at h
  rw [if_neg hb, if_pos h]

theorem C7_two_column_witness :
    codeRightFrac pageTwoCol > 3/10 ∧
    pageTwoColBlockR.y0 < pageTwoColBlockL.y0 ∧
    page_blocks_to_lines pageTwoCol = ["L1", "R1"] :=
  ⟨by decide, by decide, (C7_two_column_amended pageTwoCol (by decide)).trans (by decide)⟩

/-! ### C8: the bullet-extraction state machine -/

theorem bulletsLoop_foldl (lines : List String) (bullets cur : List String) :
    bulletsLoop lines bullets cur =
      flushAcc (lines.foldl bulletStep (bullets, cur)).1
        (lines.foldl bulletStep (bullets, cur)).2 := by
  induction lines generalizing bullets cur with
  | nil => rfl
  | cons ln rest ih =>
    rw [List.foldl_cons]
    show bulletsLoop (ln :: rest) bullets cur = _
    unfold bulletsLoop bulletStep
    cases ham : afterMarker ln.data with
    | some rem => exact ih _ _
    | none =>
      by_cases hblank : pyStrip ln.data = []
      · rw [if_pos hblank, if_pos hblank]
        exact ih _ _
      · rw [if_neg hblank, if_neg hblank]
        by_cases hsent : ((pyStrip ln.data).getLast? = some '.' &&
            5 ≤ wordCount ln.data && cur = []) = true
        · rw [if_pos hsent, if_pos hsent]
          exact ih _ _
        · rw [if_neg hsent, if_neg hsent]
          exact ih _ _

/-- C8: the bullet extractor is exactly the claim's accumulator state
machine followed by case-insensitive first-seen de-duplication and the
200-bullet cap. -/
theorem C8_bullet_machine (lines : List String) :
    extract_bullets_from_lines lines = extract_bullets_spec lines := by
  unfold extract_bullets_from_lines extract_bullets_spec
  rw [bulletsLoop_foldl]

/-! ### C9: the skills extractor -/

/-- C9 counterexample: a skills line with exactly 3 commas and a slash.
The code splits it comma-densely (keeping "Java/Scala" whole); the claim's
"more than 3 commas" reading would use the broad splitter and cut at the
slash. -/
theorem C9_skills_counterexample :
    extract_skills ["Java/Scala, Python, Ruby, Perl"] =
      ["Java/Scala", "Python", "Ruby", "Perl"] ∧
    extract_skills_claimed ["Java/Scala, Python, Ruby, Perl"] =
      ["Java", "Scala", "Python", "Ruby", "Perl"] ∧
    extract_skills ["Java/Scala, Python, Ruby, Perl"] ≠
      extract_skills_claimed ["Java/Scala, Python, Ruby, Perl"] :=
  ⟨by decide, by decide, by decide⟩

theorem splitAtChars_ne_nil (p : Char → Bool) (l : List Char) :
    splitAtChars p l ≠ [] := by
  induction l with
  | nil => simp [splitAtChars]
  | cons c rest ih =>
    unfold splitAtChars
    by_cases h : p c = true
    · simp [h]
    · simp only [h]
      cases hs : splitAtChars p rest with
      | nil => simp
      | cons a t => simp

theorem splitAtChars_length (p : Char → Bool) (l : List Char) :
    (splitAtChars p l).length = l.countP p + 1 := by
  induction l with
  | nil => simp [splitAtChars]
  | cons c rest ih =>
    unfold splitAtChars
    by_cases h : p c = true
    · simp [h, List.countP_cons, ih]
    · simp only [h]
      cases hs : splitAtChars p rest with
      | nil => exact absurd hs (splitAtChars_ne_nil p rest)
      | cons a t =>
        rw [hs] at ih
        simp only [List.length_cons] at ih ⊢
        simp [List.countP_cons, h, ih]

theorem skillsDenseCond (text : List Char) :
    (text.contains ',' &&
      decide (3 < (splitAtChars (fun c => decide (c = ',')) text).length)) =
    (text.contains ',' && decide (3 ≤ text.countP (fun c => decide (c = ',')))) := by
  rw [splitAtChars_length]
  congr 1
  rw [decide_eq_decide]
  omega

theorem skillsDedupCond (k : List Char) (x : Bool) :
    (decide (k ≠ []) && x && decide (1 < k.length)) =
      (decide (1 < k.length) && x) := by
  cases k with
  | nil => simp
  | cons c rest =>
    have h1 : (decide ((c :: rest) ≠ [])) = true := by simp
    rw [h1, Bool.true_and, Bool.and_comm]

/-- C9 (amended): the skills extractor is exactly the claim's pipeline once
the comma-dense test is read as "at least 3 commas" and the de-duplication
also drops one-character keys; and the scenario line
"Python, PySpark, SQL, Kafka" yields exactly those four skills in order. -/
theorem C9_skills_amended :
    (∀ lines, extract_skills lines = extract_skills_amended lines) ∧
    extract_skills ["Python, PySpark, SQL, Kafka"] =
      ["Python", "PySpark", "SQL", "Kafka"] := by
  refine ⟨?_, by decide⟩
  intro lines
  unfold extract_skills extract_skills_amended
  rw [skillsDenseCond]
  rw [List.foldl_ext _ _ ([], []) (fun st s _ => by
    show (if (decide _ && _ && decide _) = true then _ else _) = _
    rw [skillsDedupCond])]

end RoleReady
